import Mathlib

/-
Verification development for the TraduzAIBot chat relay (src/app.py).

The embedding below is a shallow model of the Python source.  Database
tables are lists of rows, the two global session dictionaries are
association lists with Python-dict semantics (insert overwrites the key,
pop removes it), and the network collaborators (JWT verification, the
Gemini translation / assistant calls, the participant INSERT) are passed
in as explicit outcome parameters: an `Option` token models the result of
get_user_from_token, an `Except Unit String` models a Gemini call that
either raises or returns a text, and a `Bool` models whether a database
statement succeeds.  Python truthiness checks on ids (`if not room_id`,
`if user_id`) are modelled by treating 0 as falsy alongside a missing
(`none`) value.
-/

namespace TraduzAI

/-- A persisted row of table traduzaibot_users: id, username, email,
access_code (stored uppercase by the register endpoint). -/
structure UserRow where
  id : Nat
  username : String
  email : String
  access_code : String
deriving DecidableEq

/-- The payload of a verified JWT as used by the socket handlers
(user_id and username, from get_user_from_token). -/
structure UserTok where
  user_id : Nat
  username : String
deriving DecidableEq

/-- A row of table traduzaibot_messages.  The timestamp column is
server-assigned at insert time, so the list order of `DB.messages` is
the insertion (= timestamp) order. -/
structure MsgRow where
  room_id : Nat
  sender_id : Nat
  message_original : String
  message_translated : String
  original_lang : String
  translated_lang : String
deriving DecidableEq

/-- The relational state: users, chat rooms as (id, is_private) pairs,
room participants as (user_id, room_id) pairs, messages, and the next
room id the serial column would assign (RETURNING id). -/
structure DB where
  users : List UserRow
  rooms : List (Nat × Bool)
  participants : List (Nat × Nat)
  messages : List MsgRow
  nextRoomId : Nat
deriving DecidableEq

/-- ASCII lowering of a string (Python str.lower on the ASCII strings
this code compares), computed on the character list so that proofs can
evaluate it. -/
def strLower (s : String) : String := String.mk (s.data.map Char.toLower)

/-- ASCII uppering of a string (Python str.upper). -/
def strUpper (s : String) : String := String.mk (s.data.map Char.toUpper)

/-- Whitespace stripping from both ends (Python str.strip). -/
def strTrim (s : String) : String :=
  String.mk (((s.data.dropWhile Char.isWhitespace).reverse.dropWhile
    Char.isWhitespace).reverse)

/-- Prefix test (Python str.startswith), on the character lists. -/
def strStartsWith (s p : String) : Bool := p.data.isPrefixOf s.data

/-- Result of the POST /api/auth/login route: 400 for a missing code,
401 for an unknown code, 200 with the user row on success. -/
inductive LoginResult where
  | badRequest
  | unauthorized
  | success (u : UserRow)
deriving DecidableEq

/-- Model of login_user (src/app.py lines 115-149): the submitted
access code is stripped and uppercased, then compared verbatim against
the stored access_code column. -/
def login_user (users : List UserRow) (raw_access_code : String) : LoginResult :=
  let access_code := strUpper (strTrim raw_access_code)
  if access_code = "" then LoginResult.badRequest
  else
    match users.find? (fun u => u.access_code == access_code) with
    | some u => LoginResult.success u
    | none => LoginResult.unauthorized

/-- Bool discriminator: did login produce a 200 response. -/
def loginSucceeded : LoginResult → Bool
  | LoginResult.success _ => true
  | _ => false

/-- Result of the POST /api/chat/find_user route. -/
inductive FindResult where
  | badRequest
  | notFound
  | found (u : UserRow)
deriving DecidableEq

/-- Model of find_user (src/app.py lines 172-201): the query is stripped
and uppercased; the SQL compares email against the lowercased query and
access_code against the uppercased query, excluding the caller. -/
def find_user (users : List UserRow) (current_user_id : Nat) (rawQuery : String) : FindResult :=
  let query := strUpper (strTrim rawQuery)
  if query = "" then FindResult.badRequest
  else
    match users.find? (fun u =>
        (u.email == strLower query || u.access_code == query) && u.id != current_user_id) with
    | some u => FindResult.found u
    | none => FindResult.notFound

/-- Bool discriminator: did find_user produce a 200 response. -/
def findSucceeded : FindResult → Bool
  | FindResult.found _ => true
  | _ => false

/-- A Python dict from Nat to Nat, as an association list.  The head of
the list is the most recently inserted binding for its key; `dset`
removes any old binding for the key, matching dict assignment. -/
abbrev NatDict := List (Nat × Nat)

/-- Dict lookup (d.get(k)). -/
def dget (d : NatDict) (k : Nat) : Option Nat :=
  (d.find? (fun p => p.1 == k)).map (fun p => p.2)

/-- Dict assignment (d[k] = v): overwrites any previous binding of k. -/
def dset (d : NatDict) (k v : Nat) : NatDict :=
  (k, v) :: d.filter (fun p => p.1 != k)

/-- Dict removal (d.pop(k, None)): drops the binding of k if present. -/
def dpop (d : NatDict) (k : Nat) : NatDict :=
  d.filter (fun p => p.1 != k)

/-- The two module-level session dictionaries (src/app.py lines 235-236):
user_socket_map maps user_id to socket sid, socket_user_map the reverse. -/
structure SessionMaps where
  user_socket_map : NatDict
  socket_user_map : NatDict
deriving DecidableEq

/-- Emissions of the authenticate handler relevant to the session maps. -/
inductive AuthEmit where
  | auth_error (toSid : Nat)
  | auth_success (toSid : Nat)
deriving DecidableEq

/-- Model of the map mutations of handle_authentication (src/app.py
lines 257-275): an invalid token emits auth_error and leaves the maps
alone; a valid token assigns both dictionaries (lines 270-272).  The
room join side of the handler touches no session map and is omitted. -/
def handle_authentication_maps (st : SessionMaps) (tok : Option UserTok) (sid : Nat) :
    SessionMaps × List AuthEmit :=
  match tok with
  | none => (st, [AuthEmit.auth_error sid])
  | some u =>
      (⟨dset st.user_socket_map u.user_id sid, dset st.socket_user_map sid u.user_id⟩,
       [AuthEmit.auth_success sid])

/-- Model of handle_disconnect (src/app.py lines 249-255):
user_id = socket_user_map.pop(sid, None); if user_id (truthy):
user_socket_map.pop(user_id, None). -/
def handle_disconnect_maps (st : SessionMaps) (sid : Nat) : SessionMaps :=
  match dget st.socket_user_map sid with
  | some uid =>
      if uid = 0 then ⟨st.user_socket_map, dpop st.socket_user_map sid⟩
      else ⟨dpop st.user_socket_map uid, dpop st.socket_user_map sid⟩
  | none => ⟨st.user_socket_map, dpop st.socket_user_map sid⟩

/-- One session-affecting socket event: an authenticate (with the decoded
token outcome) or a disconnect. -/
inductive SEvent where
  | auth (tok : Option UserTok) (sid : Nat)
  | disc (sid : Nat)

/-- Step the session maps by one event. -/
def stepEvent (st : SessionMaps) : SEvent → SessionMaps
  | SEvent.auth tok sid => (handle_authentication_maps st tok sid).1
  | SEvent.disc sid => handle_disconnect_maps st sid

/-- Run a sequence of authenticate / disconnect events. -/
def runEvents (st : SessionMaps) : List SEvent → SessionMaps
  | [] => st
  | e :: rest => runEvents (stepEvent st e) rest

/-- Number of bindings a dict holds for key k. -/
def keyCount (d : NatDict) (k : Nat) : Nat :=
  d.countP (fun p => p.1 == k)

/-- Dict wellformedness: at most one binding per key. -/
def mapInv (d : NatDict) : Prop :=
  ∀ k, keyCount d k ≤ 1

/-- Emissions of the request_conversation handler. -/
inductive ConvEmit where
  | conversation_ready (toSid roomId : Nat)
  | new_conversation_invite (toSid roomId : Nat)
  | chat_error (toSid : Nat)
deriving DecidableEq

/-- Model of the existing-room query of handle_request_conversation
(src/app.py lines 322-330): self-join of traduzaibot_room_participants
on room_id joined with traduzaibot_chat_rooms, keeping rows where
p1.user_id = lo, p2.user_id = hi and the room is private; fetchone
takes the first result. -/
def findPrivateRoom (db : DB) (lo hi : Nat) : Option Nat :=
  ((db.participants.filter (fun p1 =>
      p1.1 == lo && decide ((hi, p1.2) ∈ db.participants)
        && decide ((p1.2, true) ∈ db.rooms))).map (fun p => p.2)).head?

/-- The room r is a private room of db containing both a and b. -/
def isPrivPairRoom (db : DB) (a b r : Nat) : Prop :=
  (a, r) ∈ db.participants ∧ (b, r) ∈ db.participants ∧ (r, true) ∈ db.rooms

instance (db : DB) (a b r : Nat) : Decidable (isPrivPairRoom db a b r) := by
  unfold isPrivPairRoom
  infer_instance

/-- All private rooms of db containing both a and b (room id list). -/
def privRoomsFor (db : DB) (a b : Nat) : List Nat :=
  (db.rooms.filter (fun rr =>
      rr.2 && decide ((a, rr.1) ∈ db.participants)
        && decide ((b, rr.1) ∈ db.participants))).map (fun rr => rr.1)

/-- Model of handle_request_conversation (src/app.py lines 299-375).
An invalid token returns silently (line 304).  A missing or falsy
target_user_id emits chat_error.  The pair is sorted, the existing-room
query runs first; if it hits, only conversation_ready is emitted and no
row is written.  Otherwise a room row and the two participant rows are
inserted and committed together; participantsInsertOk = false models the
participant INSERT raising, in which case the transaction is rolled back
and chat_error is emitted.  After the commit, if the target user has a
live socket an invite is emitted to it (the username fetch for the
invite raises if the target row is absent, which after the commit only
replaces the ready emission by chat_error). -/
def handle_request_conversation (usm : NatDict) (db : DB) (tok : Option UserTok)
    (target_user_id : Option Nat) (sid : Nat) (participantsInsertOk : Bool) :
    DB × List ConvEmit :=
  match tok with
  | none => (db, [])
  | some me =>
    match target_user_id with
    | none => (db, [ConvEmit.chat_error sid])
    | some tgt =>
      if tgt = 0 then (db, [ConvEmit.chat_error sid])
      else
        let lo := min me.user_id tgt
        let hi := max me.user_id tgt
        match findPrivateRoom db lo hi with
        | some r => (db, [ConvEmit.conversation_ready sid r])
        | none =>
          if participantsInsertOk then
            let nid := db.nextRoomId
            let db1 : DB :=
              { db with
                rooms := db.rooms ++ [(nid, true)],
                participants := db.participants ++ [(lo, nid), (hi, nid)],
                nextRoomId := nid + 1 }
            match dget usm tgt with
            | some tsid =>
                match db.users.find? (fun u => u.id == tgt) with
                | some _ =>
                    (db1, [ConvEmit.new_conversation_invite tsid nid,
                           ConvEmit.conversation_ready sid nid])
                | none => (db1, [ConvEmit.chat_error sid])
            | none => (db1, [ConvEmit.conversation_ready sid nid])
          else (db, [ConvEmit.chat_error sid])

/-- The room ids carried by conversation_ready emissions, in order. -/
def convReadyRooms (es : List ConvEmit) : List Nat :=
  es.filterMap (fun e =>
    match e with
    | ConvEmit.conversation_ready _ r => some r
    | _ => none)

/-- The packet built for a receive_message emission. -/
structure Packet where
  room_id : Nat
  username : String
  original_message : String
  original_lang : String
  translated_message : String
  translated_lang : String
deriving DecidableEq

/-- Emissions of the send_message handler: chat_error to one sid,
receive_message to one sid (the /ajuda reply), or receive_message to a
Socket.IO room name (the broadcast, keyed by str(room_id)). -/
inductive ChatEmit where
  | chat_error (toSid : Nat)
  | receive_message_sid (toSid : Nat) (pkt : Packet)
  | receive_message_room (room : String) (pkt : Packet)
deriving DecidableEq

/-- Result of one send_message event: the database afterwards, the list
of message INSERT statements attempted (whether or not they committed),
and the emissions in order. -/
structure ChatResult where
  db : DB
  attempts : List MsgRow
  emits : List ChatEmit
deriving DecidableEq

/-- Model of handle_chat_message (src/app.py lines 427-530).
tok is the get_user_from_token outcome, geminiReady whether the module
level gemini_model initialized, assistant the outcome of the /ajuda
Gemini exchange, geminiResponse the outcome of the translation call
(response.text before .strip()), dbInsertOk whether the message INSERT
commits.  An invalid token or missing model emits one chat_error; a
falsy room_id emits one chat_error; a message whose lowercase form
starts with /ajuda is answered to the sender sid only (or chat_error on
assistant failure) with nothing written; otherwise a failing translation
emits one chat_error with nothing written, and a successful translation
attempts exactly one INSERT (rolled back and only logged on failure) and
broadcasts the packet to the room str(room_id). -/
def handle_chat_message (db : DB) (tok : Option UserTok) (geminiReady : Bool)
    (room_id : Option Nat) (user_message my_lang target_lang : String) (sid : Nat)
    (assistant : Except Unit String) (geminiResponse : Except Unit String)
    (dbInsertOk : Bool) : ChatResult :=
  match tok with
  | none => ⟨db, [], [ChatEmit.chat_error sid]⟩
  | some u =>
    if !geminiReady then ⟨db, [], [ChatEmit.chat_error sid]⟩
    else
      match room_id with
      | none => ⟨db, [], [ChatEmit.chat_error sid]⟩
      | some rid =>
        if rid = 0 then ⟨db, [], [ChatEmit.chat_error sid]⟩
        else
          if strStartsWith (strLower user_message) "/ajuda" then
            match assistant with
            | Except.ok help_text =>
                ⟨db, [],
                 [ChatEmit.receive_message_sid sid
                    ⟨rid, "Sistema de Ajuda", user_message, my_lang, help_text, my_lang⟩]⟩
            | Except.error _ => ⟨db, [], [ChatEmit.chat_error sid]⟩
          else
            match geminiResponse with
            | Except.error _ => ⟨db, [], [ChatEmit.chat_error sid]⟩
            | Except.ok raw =>
              let translated_text := strTrim raw
              let row : MsgRow :=
                ⟨rid, u.user_id, user_message, translated_text, my_lang, target_lang⟩
              let db1 := if dbInsertOk then { db with messages := db.messages ++ [row] } else db
              let pkt : Packet :=
                ⟨rid, u.username, user_message, my_lang, translated_text, target_lang⟩
              ⟨db1, [row], [ChatEmit.receive_message_room (toString rid) pkt]⟩

/-- Emissions of the request_chat_history handler. -/
inductive HistEmit where
  | chat_history_loaded (toSid roomId : Nat) (msgs : List (MsgRow × String))
  | chat_error (toSid : Nat)
deriving DecidableEq

/-- Model of handle_chat_history (src/app.py lines 377-425): an invalid
token or missing room_id returns silently; otherwise the room's messages
joined with the sender usernames (inner join drops orphans) are emitted
to the requesting sid only, in timestamp (= insertion) order. -/
def handle_chat_history (db : DB) (tok : Option UserTok) (room_id : Option Nat)
    (sid : Nat) : List HistEmit :=
  match tok with
  | none => []
  | some _ =>
    match room_id with
    | none => []
    | some rid =>
      if rid = 0 then []
      else
        let msgs := (db.messages.filter (fun m => m.room_id == rid)).filterMap
          (fun m => (db.users.find? (fun u => u.id == m.sender_id)).map
            (fun u => (m, u.username)))
        [HistEmit.chat_history_loaded sid rid msgs]

/-- Concrete database used by counterexample and code_bug theorems:
one registered user whose stored email contains uppercase letters. -/
def dbOneUser : DB :=
  { users := [⟨1, "alice", "Alice@Example.com", "AB12CD34"⟩],
    rooms := [], participants := [], messages := [], nextRoomId := 1 }

theorem dget_dset_self (d : NatDict) (k v : Nat) : dget (dset d k v) k = some v := by
  simp [dget, dset, List.find?]

theorem keyCount_nil (k : Nat) : keyCount [] k = 0 := rfl

theorem keyCount_filter_le (d : NatDict) (f : Nat × Nat → Bool) (k : Nat) :
    keyCount (d.filter f) k ≤ keyCount d k := by
  induction d with
  | nil => simp [keyCount]
  | cons p t ih =>
      simp only [keyCount, List.filter] at *
      cases hf : f p with
      | false => simp only [List.countP_cons]; omega
      | true => simp only [List.countP_cons]; omega

theorem keyCount_filter_ne_self (d : NatDict) (k : Nat) :
    keyCount (d.filter (fun p => p.1 != k)) k = 0 := by
  rw [keyCount, List.countP_eq_zero]
  intro p hp
  have := List.of_mem_filter hp
  simp only [bne_iff_ne, ne_eq] at this
  simp [this]

theorem mapInv_nil : mapInv [] := by
  intro k
  simp [keyCount]

theorem mapInv_dset (d : NatDict) (k v : Nat) (h : mapInv d) : mapInv (dset d k v) := by
  intro q
  have hle := keyCount_filter_le d (fun p => p.1 != k) q
  have hd := h q
  simp only [keyCount] at hle hd
  by_cases hq : q = k
  · subst hq
    have h0 := keyCount_filter_ne_self d q
    simp only [keyCount] at h0
    simp [dset, keyCount, List.countP_cons, h0]
  · have hk : ((k, v).1 == q) = false := by simp [Ne.symm hq]
    simp only [dset, keyCount, List.countP_cons, hk]
    simp only [Bool.false_eq_true, if_false]
    omega

theorem mapInv_dpop (d : NatDict) (k : Nat) (h : mapInv d) : mapInv (dpop d k) := by
  intro q
  exact le_trans (keyCount_filter_le d _ q) (h q)

theorem mapInv_stepEvent (st : SessionMaps) (e : SEvent)
    (h : mapInv st.user_socket_map) : mapInv (stepEvent st e).user_socket_map := by
  cases e with
  | auth tok sid =>
      cases tok with
      | none => simpa [stepEvent, handle_authentication_maps] using h
      | some u =>
          simpa [stepEvent, handle_authentication_maps] using
            mapInv_dset st.user_socket_map u.user_id sid h
  | disc sid =>
      simp only [stepEvent, handle_disconnect_maps]
      cases hget : dget st.socket_user_map sid with
      | none => simpa using h
      | some uid =>
          by_cases h0 : uid = 0
          · simpa [h0] using h
          · simpa [h0] using mapInv_dpop st.user_socket_map uid h

theorem mapInv_runEvents (st : SessionMaps) (evs : List SEvent)
    (h : mapInv st.user_socket_map) : mapInv (runEvents st evs).user_socket_map := by
  induction evs generalizing st with
  | nil => simpa [runEvents] using h
  | cons e rest ih =>
      rw [runEvents]
      exact ih (stepEvent st e) (mapInv_stepEvent st e h)

/-- C7: binding a user to a connection on authenticate records (or
overwrites) the user-to-socket entry and the socket-to-user entry, so
after the bind the connection id cannot still map to a previously bound
different user; and across any sequence of authenticate and disconnect
events from process start, user_socket_map holds at most one binding
per user identity (last-writer-wins on re-authentication). -/
theorem c7_bind_last_writer_wins (st : SessionMaps) (u : UserTok) (sid : Nat) :
    dget ((handle_authentication_maps st (some u) sid).1).user_socket_map u.user_id
      = some sid ∧
    dget ((handle_authentication_maps st (some u) sid).1).socket_user_map sid
      = some u.user_id ∧
    (∀ uOld, uOld ≠ u.user_id →
      dget ((handle_authentication_maps st (some u) sid).1).socket_user_map sid
        ≠ some uOld) ∧
    (∀ evs k, keyCount ((runEvents ⟨[], []⟩ evs).user_socket_map) k ≤ 1) := by
  refine ⟨?_, ?_, ?_, ?_⟩
  · simpa [handle_authentication_maps] using
      dget_dset_self st.user_socket_map u.user_id sid
  · simpa [handle_authentication_maps] using
      dget_dset_self st.socket_user_map sid u.user_id
  · intro uOld hne hcontra
    have h2 : dget ((handle_authentication_maps st (some u) sid).1).socket_user_map sid
        = some u.user_id := by
      simpa [handle_authentication_maps] using
        dget_dset_self st.socket_user_map sid u.user_id
    rw [h2] at hcontra
    exact hne (by injection hcontra; omega)
  · intro evs k
    exact mapInv_runEvents ⟨[], []⟩ evs mapInv_nil k

theorem c7_bind_last_writer_wins_witness :
    dget ((handle_authentication_maps ⟨[(9, 1)], [(1, 9)]⟩
        (some ⟨3, "bob"⟩) 1).1).socket_user_map 1 ≠ some 9 :=
  (c7_bind_last_writer_wins ⟨[(9, 1)], [(1, 9)]⟩ ⟨3, "bob"⟩ 1).2.2.1 9 (by decide)

/-- C10: after a user authenticates on connection c1 and re-authenticates
on connection c2, the stale reverse entry c1-to-user survives, so a
disconnect of c1 pops the user's forward mapping even though it points
at the still-connected c2: ConnectionOf(user) becomes absent while
socket_user_map still holds c2. -/
theorem c10_stale_reverse_disconnect (u : UserTok) (c1 c2 : Nat)
    (hne : c1 ≠ c2) (hu : u.user_id ≠ 0) :
    dget ((runEvents ⟨[], []⟩
        [SEvent.auth (some u) c1, SEvent.auth (some u) c2,
         SEvent.disc c1]).user_socket_map) u.user_id = none ∧
    dget ((runEvents ⟨[], []⟩
        [SEvent.auth (some u) c1, SEvent.auth (some u) c2,
         SEvent.disc c1]).socket_user_map) c2 = some u.user_id := by
  have h21 : (c2 == c1) = false := by simp [Ne.symm hne]
  have h12 : (c1 != c2) = true := by simp [hne]
  have h21b : (c2 != c1) = true := by simp [Ne.symm hne]
  constructor
  · simp [runEvents, stepEvent, handle_authentication_maps, handle_disconnect_maps,
      dget, dset, dpop, List.find?, List.filter, h21, h12, h21b, hu]
  · simp [runEvents, stepEvent, handle_authentication_maps, handle_disconnect_maps,
      dget, dset, dpop, List.find?, List.filter, h21, h12, h21b, hu]

theorem c10_stale_reverse_disconnect_witness :
    dget ((runEvents ⟨[], []⟩
        [SEvent.auth (some ⟨3, "bob"⟩) 1, SEvent.auth (some ⟨3, "bob"⟩) 2,
         SEvent.disc 1]).user_socket_map) 3 = none ∧
    dget ((runEvents ⟨[], []⟩
        [SEvent.auth (some ⟨3, "bob"⟩) 1, SEvent.auth (some ⟨3, "bob"⟩) 2,
         SEvent.disc 1]).socket_user_map) 2 = some 3 :=
  c10_stale_reverse_disconnect ⟨3, "bob"⟩ 1 2 (by decide) (by decide)

/-- C2: when the translation call raises, the send_message handler
inserts no Message row (the database is unchanged and no INSERT is even
attempted), broadcasts nothing to the room, and emits exactly one error
signal (chat_error) to the sending connection only. -/
theorem c2_translation_failure_isolated (db : DB) (u : UserTok) (rid sid : Nat)
    (user_message my_lang target_lang : String) (assistant : Except Unit String)
    (dbInsertOk : Bool) (hr : rid ≠ 0)
    (hcmd : strStartsWith (strLower user_message) "/ajuda" = false) :
    handle_chat_message db (some u) true (some rid) user_message my_lang target_lang sid
        assistant (Except.error ()) dbInsertOk
      = ⟨db, [], [ChatEmit.chat_error sid]⟩ := by
  simp [handle_chat_message, hr, hcmd]

theorem c2_translation_failure_isolated_witness :
    handle_chat_message dbOneUser (some ⟨1, "alice"⟩) true (some 5) "ola" "Português"
        "Inglês" 2 (Except.ok "x") (Except.error ()) true
      = ⟨dbOneUser, [], [ChatEmit.chat_error 2]⟩ :=
  c2_translation_failure_isolated dbOneUser ⟨1, "alice"⟩ 5 2 "ola" "Português" "Inglês"
    (Except.ok "x") true (by decide) (by decide)

/-- C4: when translation succeeds, exactly one Message INSERT is
attempted, the broadcast packet's translated text equals the text the
translation step produced (the stripped model response), and the
broadcast to the room occurs whether or not the INSERT commits: with a
failing INSERT the database is unchanged, with a successful one exactly
the Message row is appended, and the emission is the same in both
cases since the attempts and emits of the handler do not depend on the
persistence outcome. -/
theorem c4_translation_success_broadcast (db : DB) (u : UserTok) (rid sid : Nat)
    (user_message my_lang target_lang raw : String) (assistant : Except Unit String)
    (dbInsertOk : Bool) (hr : rid ≠ 0)
    (hcmd : strStartsWith (strLower user_message) "/ajuda" = false) :
    (handle_chat_message db (some u) true (some rid) user_message my_lang target_lang sid
        assistant (Except.ok raw) dbInsertOk).attempts
      = [⟨rid, u.user_id, user_message, strTrim raw, my_lang, target_lang⟩] ∧
    (handle_chat_message db (some u) true (some rid) user_message my_lang target_lang sid
        assistant (Except.ok raw) dbInsertOk).emits
      = [ChatEmit.receive_message_room (toString rid)
           ⟨rid, u.username, user_message, my_lang, strTrim raw, target_lang⟩] ∧
    (handle_chat_message db (some u) true (some rid) user_message my_lang target_lang sid
        assistant (Except.ok raw) false).db = db ∧
    (handle_chat_message db (some u) true (some rid) user_message my_lang target_lang sid
        assistant (Except.ok raw) true).db
      = { db with
          messages := db.messages
            ++ [⟨rid, u.user_id, user_message, strTrim raw, my_lang, target_lang⟩] } := by
  refine ⟨?_, ?_, ?_, ?_⟩ <;> simp [handle_chat_message, hr, hcmd]

theorem c4_translation_success_broadcast_witness :
    (handle_chat_message dbOneUser (some ⟨1, "alice"⟩) true (some 5) "ola" "Português"
        "Inglês" 2 (Except.ok "q") (Except.ok " hi ") false).emits
      = [ChatEmit.receive_message_room (toString (5 : Nat))
           ⟨5, "alice", "ola", "Português", strTrim " hi ", "Inglês"⟩] :=
  (c4_translation_success_broadcast dbOneUser ⟨1, "alice"⟩ 5 2 "ola" "Português" "Inglês"
    " hi " (Except.ok "q") false (by decide) (by decide)).2.1

/-- C5: a message whose text begins with the command prefix /ajuda
(matched on the lowercased text) is answered to the sender's connection
only as a message authored by "Sistema de Ajuda"; no Message row is
attempted or persisted, nothing is emitted to the room, an assistant
failure turns only into a single chat_error to the sender, and the
handler never reaches the translation step: its result does not depend
on the translation outcome or the persistence flag. -/
theorem c5_command_interception_sender_only (db : DB) (u : UserTok) (rid sid : Nat)
    (user_message my_lang target_lang help_text : String)
    (ast tr tr2 : Except Unit String) (dbOk dbOk2 : Bool)
    (hr : rid ≠ 0) (hcmd : strStartsWith (strLower user_message) "/ajuda" = true) :
    handle_chat_message db (some u) true (some rid) user_message my_lang target_lang sid
        (Except.ok help_text) tr dbOk
      = ⟨db, [],
         [ChatEmit.receive_message_sid sid
            ⟨rid, "Sistema de Ajuda", user_message, my_lang, help_text, my_lang⟩]⟩ ∧
    handle_chat_message db (some u) true (some rid) user_message my_lang target_lang sid
        (Except.error ()) tr dbOk
      = ⟨db, [], [ChatEmit.chat_error sid]⟩ ∧
    handle_chat_message db (some u) true (some rid) user_message my_lang target_lang sid
        ast tr dbOk
      = handle_chat_message db (some u) true (some rid) user_message my_lang target_lang
          sid ast tr2 dbOk2 := by
  refine ⟨?_, ?_, ?_⟩
  · simp [handle_chat_message, hr, hcmd]
  · simp [handle_chat_message, hr, hcmd]
  · cases ast <;> simp [handle_chat_message, hr, hcmd]

theorem c5_command_interception_sender_only_witness :
    handle_chat_message dbOneUser (some ⟨1, "alice"⟩) true (some 5) "/Ajuda clima"
        "Português" "Inglês" 2 (Except.ok "faz sol") (Except.error ()) true
      = ⟨dbOneUser, [],
         [ChatEmit.receive_message_sid 2
            ⟨5, "Sistema de Ajuda", "/Ajuda clima", "Português", "faz sol",
             "Português"⟩]⟩ :=
  (c5_command_interception_sender_only dbOneUser ⟨1, "alice"⟩ 5 2 "/Ajuda clima"
    "Português" "Inglês" "faz sol" (Except.ok "z") (Except.error ()) (Except.ok "w")
    true false (by decide) (by decide)).1

/-- C9 counterexample: a request_conversation and a request_chat_history
event arriving with a credential that does not verify are dropped with
no emission at all, so no AuthError signal is sent back to the
originating connection, contrary to the claim. -/
theorem c9_counterexample_silent_drop :
    handle_request_conversation [] dbOneUser none (some 1) 3 true = (dbOneUser, []) ∧
    handle_chat_history dbOneUser none (some 1) 3 = [] :=
  ⟨rfl, rfl⟩

/-- C9 amended: an unauthenticated send_message is rejected with exactly
one chat_error signal to the originating connection and no other effect
(no write, no broadcast), while unauthenticated request_conversation and
request_chat_history events are silently ignored: no emission of any
kind and no other effect. -/
theorem c9_unauthenticated_rejected_amended (db : DB) (g : Bool)
    (room_id tgt : Option Nat) (user_message my_lang target_lang : String) (sid : Nat)
    (ast tr : Except Unit String) (dbOk pOk : Bool) (usm : NatDict) :
    handle_chat_message db none g room_id user_message my_lang target_lang sid ast tr dbOk
      = ⟨db, [], [ChatEmit.chat_error sid]⟩ ∧
    handle_request_conversation usm db none tgt sid pOk = (db, []) ∧
    handle_chat_history db none room_id sid = [] :=
  ⟨rfl, rfl, rfl⟩

/-- C8 evaluated at the failing input: a request_conversation whose
target is the requester itself (user 1 asking for user 1 on an empty
room table) is not rejected with any error; the handler creates a
private room with two participant rows both naming user 1 and emits
conversation_ready for it. -/
theorem c8_self_conversation_not_rejected :
    handle_request_conversation [] dbOneUser (some ⟨1, "alice"⟩) (some 1) 7 true
      = ({ dbOneUser with
           rooms := [(1, true)], participants := [(1, 1), (1, 1)], nextRoomId := 2 },
         [ConvEmit.conversation_ready 7 1]) := by
  decide

/-- C6 counterexample: the contact-address comparison is not
case-insensitive.  For the registered user whose stored email is
"Alice@Example.com", find_user misses even when the query is the address
in its exact stored case (the query is lowercased before the comparison
but the stored column is compared verbatim), refuting that lookup by
contact address succeeds regardless of the case in which it is queried. -/
theorem c6_counterexample_email_case :
    find_user dbOneUser.users 2 "Alice@Example.com" = FindResult.notFound := by
  decide

/-- C6 amended: the access credential is whitespace-trimmed and
uppercased at the login comparison point, so login succeeds whenever
some user's stored code equals the trimmed-uppercased input — in
particular a code stored uppercase and entered lowercase with
surrounding whitespace; the contact address is compared against the
lowercased normalized query, so lookup by address succeeds for a query
in any case exactly when the stored address equals that lowercased
query, i.e. only for stored addresses that are entirely lowercase. -/
theorem c6_normalization_amended (users : List UserRow) (u v : UserRow)
    (raw rawQ : String) (cur : Nat)
    (hmem : u ∈ users) (hc0 : u.access_code ≠ "")
    (hcode : u.access_code = strUpper (strTrim raw))
    (hmemv : v ∈ users) (he0 : v.email ≠ "")
    (hemail : v.email = strLower (strUpper (strTrim rawQ)))
    (hvcur : v.id ≠ cur) :
    loginSucceeded (login_user users raw) = true ∧
    findSucceeded (find_user users cur rawQ) = true := by
  constructor
  · have hq : strUpper (strTrim raw) ≠ "" := fun h => hc0 (by rw [hcode, h])
    have hex : (users.find? (fun x => x.access_code == strUpper (strTrim raw))).isSome := by
      rw [List.find?_isSome]
      exact ⟨u, hmem, by simp [hcode]⟩
    rw [login_user]
    simp only [hq, if_false]
    cases hfind : users.find? (fun x => x.access_code == strUpper (strTrim raw)) with
    | none => rw [hfind] at hex; simp at hex
    | some x => simp [loginSucceeded]
  · have hq : strUpper (strTrim rawQ) ≠ "" := by
      intro h
      apply he0
      rw [hemail, h]
      rfl
    have hex : (users.find? (fun x =>
        (x.email == strLower (strUpper (strTrim rawQ))
          || x.access_code == strUpper (strTrim rawQ)) && x.id != cur)).isSome := by
      rw [List.find?_isSome]
      exact ⟨v, hmemv, by simp [hemail, hvcur]⟩
    rw [find_user]
    simp only [hq, if_false]
    cases hfind : users.find? (fun x =>
        (x.email == strLower (strUpper (strTrim rawQ))
          || x.access_code == strUpper (strTrim rawQ)) && x.id != cur) with
    | none => rw [hfind] at hex; simp at hex
    | some x => simp [findSucceeded]

theorem c6_normalization_amended_witness :
    loginSucceeded (login_user
      [⟨1, "alice", "alice@example.com", "AB12CD34"⟩] " ab12cd34 ") = true ∧
    findSucceeded (find_user
      [⟨1, "alice", "alice@example.com", "AB12CD34"⟩] 2 "ALICE@Example.COM") = true :=
  c6_normalization_amended [⟨1, "alice", "alice@example.com", "AB12CD34"⟩]
    ⟨1, "alice", "alice@example.com", "AB12CD34"⟩
    ⟨1, "alice", "alice@example.com", "AB12CD34"⟩
    " ab12cd34 " "ALICE@Example.COM" 2
    (by decide) (by decide) (by decide) (by decide) (by decide) (by decide) (by decide)

theorem findPrivateRoom_some (db : DB) (lo hi r : Nat)
    (h : findPrivateRoom db lo hi = some r) : isPrivPairRoom db lo hi r := by
  unfold findPrivateRoom at h
  cases hl : db.participants.filter (fun p1 =>
      p1.1 == lo && decide ((hi, p1.2) ∈ db.participants)
        && decide ((p1.2, true) ∈ db.rooms)) with
  | nil => rw [hl] at h; simp at h
  | cons p rest =>
      rw [hl] at h
      simp only [List.map_cons, List.head?] at h
      have hp : p ∈ db.participants.filter (fun p1 =>
          p1.1 == lo && decide ((hi, p1.2) ∈ db.participants)
            && decide ((p1.2, true) ∈ db.rooms)) := by
        rw [hl]
        exact List.mem_cons_self p rest
      obtain ⟨hpmem, hpred⟩ := List.mem_filter.mp hp
      simp only [Bool.and_eq_true, beq_iff_eq, decide_eq_true_eq] at hpred
      obtain ⟨⟨h1, h2⟩, h3⟩ := hpred
      obtain ⟨p1, p2⟩ := p
      simp only at h1 h2 h3
      obtain rfl : p2 = r := by injection h
      subst h1
      exact ⟨hpmem, h2, h3⟩

theorem findPrivateRoom_none (db : DB) (lo hi : Nat)
    (h : findPrivateRoom db lo hi = none) (r : Nat) : ¬ isPrivPairRoom db lo hi r := by
  rintro ⟨hlo, hhi, hroom⟩
  unfold findPrivateRoom at h
  rw [List.head?_eq_none_iff, List.map_eq_nil_iff, List.filter_eq_nil_iff] at h
  have hcontra := h (lo, r) hlo
  simp [hhi, hroom] at hcontra

theorem mem_privRoomsFor (db : DB) (a b r : Nat) :
    r ∈ privRoomsFor db a b ↔ isPrivPairRoom db a b r := by
  unfold privRoomsFor isPrivPairRoom
  simp only [List.mem_map, List.mem_filter, Bool.and_eq_true, decide_eq_true_eq]
  constructor
  · rintro ⟨rr, ⟨hmem, ⟨hpriv, ha⟩, hb⟩, rfl⟩
    obtain ⟨r1, r2⟩ := rr
    simp only at hpriv ha hb
    subst hpriv
    exact ⟨ha, hb, hmem⟩
  · rintro ⟨ha, hb, hroom⟩
    exact ⟨(r, true), ⟨hroom, ⟨rfl, ha⟩, hb⟩, rfl⟩

theorem isPrivPairRoom_minmax (db : DB) (a b r : Nat) :
    isPrivPairRoom db (min a b) (max a b) r ↔ isPrivPairRoom db a b r := by
  rcases le_total a b with hab | hab
  · rw [min_eq_left hab, max_eq_right hab]
  · rw [min_eq_right hab, max_eq_left hab]
    unfold isPrivPairRoom
    tauto

theorem eq_singleton_of_length_le_one {α : Type} {l : List α} {x : α}
    (h1 : l.length ≤ 1) (h2 : x ∈ l) : l = [x] := by
  match l, h2 with
  | [y], h2 =>
      have : x = y := by simpa using h2
      rw [this]
  | y :: z :: t, _ => simp at h1

theorem privRoomsFor_create (db db2 : DB) (a b : Nat)
    (hr2 : db2.rooms = db.rooms ++ [(db.nextRoomId, true)])
    (hp2 : db2.participants = db.participants
      ++ [(min a b, db.nextRoomId), (max a b, db.nextRoomId)])
    (hfreshR : ∀ rr ∈ db.rooms, rr.1 < db.nextRoomId)
    (hnone : ∀ r, ¬ isPrivPairRoom db a b r) :
    privRoomsFor db2 a b = [db.nextRoomId] := by
  unfold privRoomsFor
  rw [hr2, hp2, List.filter_append, List.map_append]
  have hmem2 : ∀ x : Nat, ∀ rid : Nat, rid ≠ db.nextRoomId →
      (x, rid) ∈ db.participants
        ++ [(min a b, db.nextRoomId), (max a b, db.nextRoomId)] →
      (x, rid) ∈ db.participants := by
    intro x rid hne hx
    rcases List.mem_append.mp hx with h | h
    · exact h
    · exfalso
      rcases List.mem_cons.mp h with h2 | h2
      · exact hne (congrArg Prod.snd h2)
      · rcases List.mem_cons.mp h2 with h3 | h3
        · exact hne (congrArg Prod.snd h3)
        · simp at h3
  have hold : db.rooms.filter (fun rr =>
      rr.2 && decide ((a, rr.1) ∈ db.participants
          ++ [(min a b, db.nextRoomId), (max a b, db.nextRoomId)])
        && decide ((b, rr.1) ∈ db.participants
          ++ [(min a b, db.nextRoomId), (max a b, db.nextRoomId)])) = [] := by
    rw [List.filter_eq_nil_iff]
    intro rr hmem hpred
    simp only [Bool.and_eq_true, decide_eq_true_eq] at hpred
    obtain ⟨⟨hpriv, ha⟩, hb⟩ := hpred
    have hane : rr.1 ≠ db.nextRoomId := Nat.ne_of_lt (hfreshR rr hmem)
    have ha2 := hmem2 a rr.1 hane ha
    have hb2 := hmem2 b rr.1 hane hb
    have hroom : (rr.1, true) ∈ db.rooms := by
      obtain ⟨r1, r2⟩ := rr
      simp only at hpriv
      subst hpriv
      exact hmem
    exact hnone rr.1 ⟨ha2, hb2, hroom⟩
  have hamem : (a, db.nextRoomId) ∈ db.participants
      ++ [(min a b, db.nextRoomId), (max a b, db.nextRoomId)] := by
    refine List.mem_append_right _ ?_
    rcases le_total a b with hab | hab
    · rw [min_eq_left hab]
      exact List.mem_cons_self _ _
    · rw [max_eq_left hab]
      exact List.mem_cons_of_mem _ (List.mem_cons_self _ _)
  have hbmem : (b, db.nextRoomId) ∈ db.participants
      ++ [(min a b, db.nextRoomId), (max a b, db.nextRoomId)] := by
    refine List.mem_append_right _ ?_
    rcases le_total a b with hab | hab
    · rw [max_eq_right hab]
      exact List.mem_cons_of_mem _ (List.mem_cons_self _ _)
    · rw [min_eq_right hab]
      exact List.mem_cons_self _ _
  have hprednew : (fun rr : Nat × Bool =>
      rr.2 && decide ((a, rr.1) ∈ db.participants
          ++ [(min a b, db.nextRoomId), (max a b, db.nextRoomId)])
        && decide ((b, rr.1) ∈ db.participants
          ++ [(min a b, db.nextRoomId), (max a b, db.nextRoomId)]))
      ((db.nextRoomId, true) : Nat × Bool) = true := by
    simp only [Bool.and_eq_true, decide_eq_true_eq]
    exact ⟨⟨trivial, hamem⟩, hbmem⟩
  have hnew : ([((db.nextRoomId, true) : Nat × Bool)].filter (fun rr =>
      rr.2 && decide ((a, rr.1) ∈ db.participants
          ++ [(min a b, db.nextRoomId), (max a b, db.nextRoomId)])
        && decide ((b, rr.1) ∈ db.participants
          ++ [(min a b, db.nextRoomId), (max a b, db.nextRoomId)]))) = [(db.nextRoomId, true)] := by
    rw [List.filter_cons_of_pos]
    · rfl
    · exact hprednew
  rw [hold, hnew]
  rfl

theorem findPrivateRoom_of_single (db : DB) (a b r : Nat)
    (h : privRoomsFor db a b = [r]) :
    findPrivateRoom db (min a b) (max a b) = some r := by
  have hr : isPrivPairRoom db a b r := (mem_privRoomsFor db a b r).mp (by
    rw [h]
    exact List.mem_singleton_self r)
  have hr2 : isPrivPairRoom db (min a b) (max a b) r :=
    (isPrivPairRoom_minmax db a b r).mpr hr
  cases hfind : findPrivateRoom db (min a b) (max a b) with
  | none => exact absurd hr2 (findPrivateRoom_none db _ _ hfind r)
  | some r2 =>
      have h2 := findPrivateRoom_some db _ _ r2 hfind
      have h3 : r2 ∈ privRoomsFor db a b :=
        (mem_privRoomsFor db a b r2).mpr ((isPrivPairRoom_minmax db a b r2).mp h2)
      rw [h] at h3
      simp only [List.mem_singleton] at h3
      rw [h3]

/-- C1: for a pair of distinct users, the find-or-create conversation
handler queries for an existing private room with both participants
before inserting.  Starting from a database with fresh room ids and at
most one private room for the pair, one call emits conversation_ready
with exactly one room id, afterwards exactly one private room containing
both users exists (the emitted one), and a repeated call for the same
pair returns the same room id while changing nothing: the existing-room
branch creates no row. -/
theorem c1_find_or_create_idempotent (usm usm2 : NatDict) (db : DB) (me : UserTok)
    (tgt sid sid2 : Nat)
    (hne : me.user_id ≠ tgt) (htgt0 : tgt ≠ 0)
    (hfreshR : ∀ rr ∈ db.rooms, rr.1 < db.nextRoomId)
    (hfreshP : ∀ p ∈ db.participants, p.2 < db.nextRoomId)
    (huniq : (privRoomsFor db me.user_id tgt).length ≤ 1)
    (hinv : dget usm tgt = none
      ∨ (db.users.find? (fun u => u.id == tgt)).isSome = true) :
    (convReadyRooms
        (handle_request_conversation usm db (some me) (some tgt) sid true).2).length = 1 ∧
    privRoomsFor (handle_request_conversation usm db (some me) (some tgt) sid true).1
        me.user_id tgt
      = convReadyRooms (handle_request_conversation usm db (some me) (some tgt) sid true).2 ∧
    handle_request_conversation usm2
        (handle_request_conversation usm db (some me) (some tgt) sid true).1
        (some me) (some tgt) sid2 true
      = ((handle_request_conversation usm db (some me) (some tgt) sid true).1,
         [ConvEmit.conversation_ready sid2
            ((convReadyRooms
              (handle_request_conversation usm db (some me) (some tgt) sid true).2).headD 0)]) := by
  cases hfind : findPrivateRoom db (min me.user_id tgt) (max me.user_id tgt) with
  | some r =>
      have heval1 : handle_request_conversation usm db (some me) (some tgt) sid true
          = (db, [ConvEmit.conversation_ready sid r]) := by
        simp [handle_request_conversation, htgt0, hfind]
      have hpair : isPrivPairRoom db me.user_id tgt r :=
        (isPrivPairRoom_minmax db me.user_id tgt r).mp (findPrivateRoom_some db _ _ r hfind)
      have hsingle : privRoomsFor db me.user_id tgt = [r] :=
        eq_singleton_of_length_le_one huniq ((mem_privRoomsFor db _ _ r).mpr hpair)
      have heval2 : handle_request_conversation usm2 db (some me) (some tgt) sid2 true
          = (db, [ConvEmit.conversation_ready sid2 r]) := by
        simp [handle_request_conversation, htgt0, hfind]
      rw [heval1]
      refine ⟨by simp [convReadyRooms], by simpa [convReadyRooms] using hsingle, ?_⟩
      simpa [convReadyRooms] using heval2
  | none =>
      have hnone : ∀ r, ¬ isPrivPairRoom db me.user_id tgt r := fun r hr =>
        findPrivateRoom_none db _ _ hfind r
          ((isPrivPairRoom_minmax db me.user_id tgt r).mpr hr)
      have hpriv1 : privRoomsFor
          { db with
            rooms := db.rooms ++ [(db.nextRoomId, true)],
            participants := db.participants
              ++ [(min me.user_id tgt, db.nextRoomId), (max me.user_id tgt, db.nextRoomId)],
            nextRoomId := db.nextRoomId + 1 } me.user_id tgt = [db.nextRoomId] :=
        privRoomsFor_create db _ me.user_id tgt rfl rfl hfreshR hnone
      have hfind2 : findPrivateRoom
          { db with
            rooms := db.rooms ++ [(db.nextRoomId, true)],
            participants := db.participants
              ++ [(min me.user_id tgt, db.nextRoomId), (max me.user_id tgt, db.nextRoomId)],
            nextRoomId := db.nextRoomId + 1 }
          (min me.user_id tgt) (max me.user_id tgt) = some db.nextRoomId :=
        findPrivateRoom_of_single _ me.user_id tgt db.nextRoomId hpriv1
      have heval2 : handle_request_conversation usm2
          { db with
            rooms := db.rooms ++ [(db.nextRoomId, true)],
            participants := db.participants
              ++ [(min me.user_id tgt, db.nextRoomId), (max me.user_id tgt, db.nextRoomId)],
            nextRoomId := db.nextRoomId + 1 }
          (some me) (some tgt) sid2 true
          = ({ db with
               rooms := db.rooms ++ [(db.nextRoomId, true)],
               participants := db.participants
                 ++ [(min me.user_id tgt, db.nextRoomId), (max me.user_id tgt, db.nextRoomId)],
               nextRoomId := db.nextRoomId + 1 },
             [ConvEmit.conversation_ready sid2 db.nextRoomId]) := by
        simp [handle_request_conversation, htgt0, hfind2]
      cases hget : dget usm tgt with
      | none =>
          have heval1 : handle_request_conversation usm db (some me) (some tgt) sid true
              = ({ db with
                   rooms := db.rooms ++ [(db.nextRoomId, true)],
                   participants := db.participants
                     ++ [(min me.user_id tgt, db.nextRoomId),
                         (max me.user_id tgt, db.nextRoomId)],
                   nextRoomId := db.nextRoomId + 1 },
                 [ConvEmit.conversation_ready sid db.nextRoomId]) := by
            simp [handle_request_conversation, htgt0, hfind, hget]
          rw [heval1]
          refine ⟨by simp [convReadyRooms], by simpa [convReadyRooms] using hpriv1, ?_⟩
          simpa [convReadyRooms] using heval2
      | some tsid =>
          have hfu : (db.users.find? (fun u => u.id == tgt)).isSome = true := by
            rcases hinv with hinv | hinv
            · rw [hget] at hinv
              cases hinv
            · exact hinv
          obtain ⟨uu, hfu2⟩ := Option.isSome_iff_exists.mp hfu
          have heval1 : handle_request_conversation usm db (some me) (some tgt) sid true
              = ({ db with
                   rooms := db.rooms ++ [(db.nextRoomId, true)],
                   participants := db.participants
                     ++ [(min me.user_id tgt, db.nextRoomId),
                         (max me.user_id tgt, db.nextRoomId)],
                   nextRoomId := db.nextRoomId + 1 },
                 [ConvEmit.new_conversation_invite tsid db.nextRoomId,
                  ConvEmit.conversation_ready sid db.nextRoomId]) := by
            simp [handle_request_conversation, htgt0, hfind, hget, hfu2]
          rw [heval1]
          refine ⟨by simp [convReadyRooms], by simpa [convReadyRooms] using hpriv1, ?_⟩
          simpa [convReadyRooms] using heval2

theorem c1_find_or_create_idempotent_witness :
    (convReadyRooms
        (handle_request_conversation [] dbOneUser (some ⟨1, "alice"⟩)
          (some 2) 7 true).2).length = 1 ∧
    privRoomsFor (handle_request_conversation [] dbOneUser (some ⟨1, "alice"⟩)
        (some 2) 7 true).1 1 2
      = convReadyRooms (handle_request_conversation [] dbOneUser (some ⟨1, "alice"⟩)
          (some 2) 7 true).2 ∧
    handle_request_conversation []
        (handle_request_conversation [] dbOneUser (some ⟨1, "alice"⟩) (some 2) 7 true).1
        (some ⟨1, "alice"⟩) (some 2) 8 true
      = ((handle_request_conversation [] dbOneUser (some ⟨1, "alice"⟩) (some 2) 7 true).1,
         [ConvEmit.conversation_ready 8
            ((convReadyRooms (handle_request_conversation [] dbOneUser (some ⟨1, "alice"⟩)
              (some 2) 7 true).2).headD 0)]) :=
  c1_find_or_create_idempotent [] [] dbOneUser ⟨1, "alice"⟩ 2 7 8 (by decide) (by decide)
    (by decide) (by decide) (by decide) (by decide)

/-- C3: the room row and its two participant rows are committed as one
unit.  When the participant INSERT raises, the handler rolls the
transaction back: the database is exactly the original one (no room row
survives) and only chat_error is emitted; when it succeeds, the
committed database contains the new private room together with exactly
two participant rows referencing it, so a private room with fewer than
two participants is never persisted by this operation. -/
theorem c3_room_creation_atomic (usm : NatDict) (db : DB) (me : UserTok)
    (tgt sid : Nat) (htgt0 : tgt ≠ 0)
    (hfind : findPrivateRoom db (min me.user_id tgt) (max me.user_id tgt) = none)
    (hfreshP : ∀ p ∈ db.participants, p.2 < db.nextRoomId) :
    handle_request_conversation usm db (some me) (some tgt) sid false
      = (db, [ConvEmit.chat_error sid]) ∧
    (db.nextRoomId, true)
      ∈ (handle_request_conversation usm db (some me) (some tgt) sid true).1.rooms ∧
    ((handle_request_conversation usm db (some me) (some tgt) sid
        true).1.participants.countP (fun p => p.2 == db.nextRoomId)) = 2 := by
  have hdb : (handle_request_conversation usm db (some me) (some tgt) sid true).1
      = { db with
          rooms := db.rooms ++ [(db.nextRoomId, true)],
          participants := db.participants
            ++ [(min me.user_id tgt, db.nextRoomId), (max me.user_id tgt, db.nextRoomId)],
          nextRoomId := db.nextRoomId + 1 } := by
    cases hget : dget usm tgt with
    | none => simp [handle_request_conversation, htgt0, hfind, hget]
    | some tsid =>
        cases hfu : db.users.find? (fun u => u.id == tgt) with
        | none => simp [handle_request_conversation, htgt0, hfind, hget, hfu]
        | some uu => simp [handle_request_conversation, htgt0, hfind, hget, hfu]
  have h0 : db.participants.countP (fun p => p.2 == db.nextRoomId) = 0 := by
    rw [List.countP_eq_zero]
    intro p hp
    simp [Nat.ne_of_lt (hfreshP p hp)]
  refine ⟨?_, ?_, ?_⟩
  · simp [handle_request_conversation, htgt0, hfind]
  · rw [hdb]
    simp
  · rw [hdb]
    simp [List.countP_append, List.countP_cons, h0]

theorem c3_room_creation_atomic_witness :
    handle_request_conversation [] dbOneUser (some ⟨1, "alice"⟩) (some 2) 7 false
      = (dbOneUser, [ConvEmit.chat_error 7]) ∧
    (1, true)
      ∈ (handle_request_conversation [] dbOneUser (some ⟨1, "alice"⟩)
          (some 2) 7 true).1.rooms ∧
    ((handle_request_conversation [] dbOneUser (some ⟨1, "alice"⟩)
        (some 2) 7 true).1.participants.countP (fun p => p.2 == 1)) = 2 :=
  c3_room_creation_atomic [] dbOneUser ⟨1, "alice"⟩ 2 7 (by decide) (by decide) (by decide)

end TraduzAI
